import Mathlib

/-!
# Home-Search: the extraction-and-filtering pipeline of `server.js`

A shallow embedding of the request handler `POST /api/parse-properties`, of the
normalizer `propertiesRequirements` it builds, of `fetchProperties` with its
post-filter, and of `llmApi` from `src/utils/llm.js`.

JavaScript values are the data values a JSON body or a parsed model answer can
hold.  Numbers are IEEE doubles seen through their exact value: `NaN`, the two
infinities, or a rational (the two zeros are one value, which is sound for
truthiness, `===`, `<=` and `>=`, the only operations the code applies).
Code that can throw returns an `Except`: a property read on `null` or
`undefined`, and the coercion to a number of an object whose own `toString`
shadows the inherited one.
-/

namespace HomeSearch

/-! ## JavaScript values -/

/-- A JavaScript number: `NaN`, `Infinity`, `-Infinity` or a finite value. -/
inductive JSNum where
  | nan
  | posInf
  | negInf
  | fin (q : ℚ)
  deriving DecidableEq

/-- A JavaScript data value. An object is its list of own properties, the first
binding of a key being the one a property read sees. -/
inductive JSValue where
  | undefined
  | null
  | bool (b : Bool)
  | num (n : JSNum)
  | str (s : String)
  | arr (items : List JSValue)
  | obj (props : List (String × JSValue))

/-- A thrown JavaScript error, by its message. -/
abbrev JSError := String

/-- The parts of the language runtime that coercion relies on: the
`StringToNumber` grammar and the string that the inherited `toString` of an
array or plain object returns when it returns. -/
structure Builtins where
  StringToNumber : String → JSNum
  ObjectToString : JSValue → String

/-- Truthiness of a number: every number but `NaN` and zero. -/
def JSNum.truthy : JSNum → Bool
  | .nan => false
  | .fin q => decide (q ≠ 0)
  | _ => true

/-- The comparison `a <= b` on numbers; false as soon as one side is `NaN`. -/
def JSNum.le : JSNum → JSNum → Bool
  | .nan, _ => false
  | _, .nan => false
  | .negInf, _ => true
  | _, .posInf => true
  | .posInf, _ => false
  | _, .negInf => false
  | .fin a, .fin b => decide (a ≤ b)

/-- The comparison `a < b` on numbers; false as soon as one side is `NaN`. -/
def JSNum.lt : JSNum → JSNum → Bool
  | .nan, _ => false
  | _, .nan => false
  | .posInf, _ => false
  | _, .negInf => false
  | .negInf, _ => true
  | _, .posInf => true
  | .fin a, .fin b => decide (a < b)

/-- Numeric equality as `===` sees it: `NaN` equals nothing. -/
def JSNum.eq : JSNum → JSNum → Bool
  | .nan, _ => false
  | _, .nan => false
  | a, b => decide (a = b)

/-- Truthiness of a value (`ToBoolean`). -/
def JSValue.truthy : JSValue → Bool
  | .undefined => false
  | .null => false
  | .bool b => b
  | .num n => n.truthy
  | .str s => decide (s ≠ "")
  | .arr _ => true
  | .obj _ => true

mutual
/-- Whether the conversion of a value to a string returns rather than throws.
An own property of a data object is never callable, so an object with an own
`toString` has no usable conversion method (the inherited `valueOf` returns the
object itself) and the conversion throws a `TypeError`; an array joins the
conversions of its elements. -/
def stringifies : JSValue → Bool
  | .obj props => (props.lookup "toString").isNone
  | .arr items => stringifiesAll items
  | _ => true
/-- Whether every element of an array converts to a string. -/
def stringifiesAll : List JSValue → Bool
  | [] => true
  | v :: rest => stringifies v && stringifiesAll rest
end

/-- The coercion `Number(v)` (`ToNumber`). An array or object goes through
`ToPrimitive`: the inherited `valueOf` returns the object itself, so the result
is that of `toString`, and a `TypeError` is thrown when that is not usable. -/
def toNumber (B : Builtins) : JSValue → Except JSError JSNum
  | .undefined => .ok .nan
  | .null => .ok (.fin 0)
  | .bool b => .ok (if b then .fin 1 else .fin 0)
  | .num n => .ok n
  | .str s => .ok (B.StringToNumber s)
  | v =>
    if stringifies v then .ok (B.StringToNumber (B.ObjectToString v))
    else .error "TypeError: Cannot convert object to primitive value"

/-- The property read `v.key` when `v` is neither `null` nor `undefined`: an own
property of an object, `undefined` on anything else (none of the keys the code
reads is an inherited property of a string, number, boolean or array). -/
def ownProp (key : String) : JSValue → JSValue
  | .obj props => (props.lookup key).getD .undefined
  | _ => .undefined

/-- The property read `v.key`; it throws a `TypeError` on `null` and on
`undefined`. -/
def getProp (v : JSValue) (key : String) : Except JSError JSValue :=
  match v with
  | .undefined => .error "TypeError: Cannot read properties of undefined"
  | .null => .error "TypeError: Cannot read properties of null"
  | w => .ok (ownProp key w)

/-- The optional read `v?.key`: `undefined` on `null` and on `undefined`. -/
def optProp (v : JSValue) (key : String) : JSValue :=
  match v with
  | .undefined => .undefined
  | .null => .undefined
  | w => ownProp key w

/-- The comparison `v === n` against a number `n`: `v` is a number equal to it. -/
def strictEqualsNum (v : JSValue) (n : JSNum) : Bool :=
  match v with
  | .num m => m.eq n
  | _ => false

/-- The comparison `v >= n` against a number `n`: `v` is coerced to a number,
which may throw. -/
def geNum (B : Builtins) (v : JSValue) (n : JSNum) : Except JSError Bool := do
  let x ← toNumber B v
  pure (n.le x)

/-- The comparison `v <= n` against a number `n`: `v` is coerced to a number,
which may throw. -/
def leNum (B : Builtins) (v : JSValue) (n : JSNum) : Except JSError Bool := do
  let x ← toNumber B v
  pure (x.le n)

/-- The expression `n || d` on numbers. -/
def numOr (n d : JSNum) : JSNum :=
  if n.truthy then n else d

/-- The method `Array.prototype.filter` with a callback that may throw: the
elements are visited in order and the first throw aborts the call. -/
def arrayFilter (cb : JSValue → Except JSError Bool) :
    List JSValue → Except JSError (List JSValue)
  | [] => .ok []
  | p :: rest => do
      let keep ← cb p
      let tail ← arrayFilter cb rest
      pure (if keep then p :: tail else tail)

/-! ## `server.js` -/

/-- The object `propertiesRequirements`: four numbers. -/
structure PropertyQuery where
  min_price : JSNum
  max_price : JSNum
  bedrooms : JSNum
  bathrooms : JSNum

/-- The normalizer of `server.js` (lines 84-89): each field is
`Number(llmResponse?.field) || default`, the four coercions running in the
order of the object literal; a coercion that throws aborts the literal. -/
def propertiesRequirements (B : Builtins) (llmResponse : JSValue) :
    Except JSError PropertyQuery := do
  let min_price ← toNumber B (optProp llmResponse "min_price")
  let max_price ← toNumber B (optProp llmResponse "max_price")
  let bedrooms ← toNumber B (optProp llmResponse "bedrooms")
  let bathrooms ← toNumber B (optProp llmResponse "bathrooms")
  pure {
    min_price := numOr min_price (.fin 1000000)
    max_price := numOr max_price (.fin 30000000)
    bedrooms := numOr bedrooms (.fin 1)
    bathrooms := numOr bathrooms (.fin 1) }

/-- The callback of the post-filter (lines 46-60), with the short-circuits of
`||` and `&&`: a field of `p` is read only when the criterion is truthy. -/
def filterCallback (B : Builtins) (q : PropertyQuery) (p : JSValue) : Except JSError Bool := do
  let bedroomsOk ←
    if !q.bedrooms.truthy then pure true
    else do
      let v ← getProp p "bedrooms"
      pure (strictEqualsNum v q.bedrooms)
  let bathroomsOk ←
    if !q.bathrooms.truthy then pure true
    else do
      let v ← getProp p "bathrooms"
      pure (strictEqualsNum v q.bathrooms)
  let minOk ←
    if !q.min_price.truthy then pure true
    else do
      let v ← getProp p "price"
      geNum B v q.min_price
  let priceOk ←
    if minOk then
      if !q.max_price.truthy then pure true
      else do
        let v ← getProp p "price"
        leNum B v q.max_price
    else pure false
  pure (bedroomsOk && bathroomsOk && priceOk)

/-- The body of the `try` block of `fetchProperties` (lines 42-60), `response`
being the outcome of `axios.request(options)`. -/
def fetchTry (B : Builtins) (q : PropertyQuery) (response : Except JSError JSValue) :
    Except JSError (List JSValue) := do
  let resp ← response
  let data ← getProp resp "data"
  let found ← getProp data "results"
  let results := if found.truthy then found else .arr []
  match results with
  | .arr items => arrayFilter (filterCallback B q) items
  | _ => .error "TypeError: results.filter is not a function"

/-- The function `fetchProperties` (lines 23-68): the request is made with the
query as parameters, and whatever is thrown inside `try` yields `[]`. -/
def fetchProperties (B : Builtins) (axios : PropertyQuery → Except JSError JSValue)
    (q : PropertyQuery) : List JSValue :=
  match fetchTry B q (axios q) with
  | .ok kept => kept
  | .error _ => []

/-- The function `llmApi` of `src/utils/llm.js`: one `chain.invoke`, whose
failure propagates, then `response?.output ?? response`. -/
def llmApi (chain : JSValue → Except JSError JSValue) (description : JSValue) :
    Except JSError JSValue := do
  let response ← chain description
  pure (match optProp response "output" with
    | .undefined => response
    | .null => response
    | out => out)

/-- What the handler sends: a status and a JSON body. -/
structure HttpResponse where
  status : Nat
  body : JSValue

/-- The steps of the handler after the check of `post` (lines 79-103): the
extraction, the normalizer and `fetchProperties`; the first two may throw. -/
def searchSteps (B : Builtins) (chain : JSValue → Except JSError JSValue)
    (axios : PropertyQuery → Except JSError JSValue) (requirements : JSValue) :
    Except JSError (List JSValue) := do
  let llmResponse ← llmApi chain requirements
  let normalized ← propertiesRequirements B llmResponse
  pure (fetchProperties B axios normalized)

/-- The handler of `POST /api/parse-properties` (lines 70-108): whatever is
thrown inside its `try` is answered by the `catch` with status 500. -/
def parseProperties (B : Builtins) (chain : JSValue → Except JSError JSValue)
    (axios : PropertyQuery → Except JSError JSValue) (body : JSValue) : HttpResponse :=
  let requirements := optProp body "post"
  if !requirements.truthy then
    ⟨400, .obj [("error", .str "Missing 'post' in request body")]⟩
  else
    match searchSteps B chain axios requirements with
    | .ok propertiesResponse => ⟨200, .arr propertiesResponse⟩
    | .error _ => ⟨500, .obj [("error", .str "Internal Server Error")]⟩

/-! ## The filter as the specification words it -/

/-- A value a property cannot be read from: `null` or `undefined`. -/
def isNullish : JSValue → Bool
  | .undefined => true
  | .null => true
  | _ => false

/-- A record the callback can evaluate without throwing whatever the query: a
property can be read from it and its `price` coerces to a number. Every record
whose `price` is a number, a string, a boolean, `null` or absent is one. -/
def readable (p : JSValue) : Bool :=
  !isNullish p && stringifies (ownProp "price" p)

/-- Equality of a value with a given number is decidable. -/
instance decEqNum (v : JSValue) (n : JSNum) : Decidable (v = .num n) :=
  match v with
  | .num m =>
      if h : m = n then isTrue (by rw [h])
      else isFalse (fun h2 => h (by injection h2))
  | .undefined => isFalse (fun h => by cases h)
  | .null => isFalse (fun h => by cases h)
  | .bool _ => isFalse (fun h => by cases h)
  | .str _ => isFalse (fun h => by cases h)
  | .arr _ => isFalse (fun h => by cases h)
  | .obj _ => isFalse (fun h => by cases h)

/-- The price of a record, coerced, is at least `n`. -/
def priceAtLeast (B : Builtins) (p : JSValue) (n : JSNum) : Prop :=
  ∃ x, toNumber B (ownProp "price" p) = .ok x ∧ n.le x = true

/-- The price of a record, coerced, is at most `n`. -/
def priceAtMost (B : Builtins) (p : JSValue) (n : JSNum) : Prop :=
  ∃ x, toNumber B (ownProp "price" p) = .ok x ∧ x.le n = true

instance (B : Builtins) (p : JSValue) (n : JSNum) : Decidable (priceAtLeast B p n) :=
  match h : toNumber B (ownProp "price" p) with
  | .ok x =>
      if hx : n.le x = true then isTrue ⟨x, h, hx⟩
      else isFalse (fun ⟨y, hy, hle⟩ => by rw [h] at hy; cases hy; exact hx hle)
  | .error _ => isFalse (fun ⟨y, hy, _⟩ => by rw [h] at hy; cases hy)

instance (B : Builtins) (p : JSValue) (n : JSNum) : Decidable (priceAtMost B p n) :=
  match h : toNumber B (ownProp "price" p) with
  | .ok x =>
      if hx : x.le n = true then isTrue ⟨x, h, hx⟩
      else isFalse (fun ⟨y, hy, hle⟩ => by rw [h] at hy; cases hy; exact hx hle)
  | .error _ => isFalse (fun ⟨y, hy, _⟩ => by rw [h] at hy; cases hy)

/-- Specification predicate `bedrooms_ok`: the criterion is falsy, or the
record's `bedrooms` is exactly the criterion. -/
def bedrooms_ok (q : PropertyQuery) (p : JSValue) : Prop :=
  q.bedrooms.truthy = false ∨ ownProp "bedrooms" p = .num q.bedrooms

/-- Specification predicate `bathrooms_ok`: the same rule on `bathrooms`. -/
def bathrooms_ok (q : PropertyQuery) (p : JSValue) : Prop :=
  q.bathrooms.truthy = false ∨ ownProp "bathrooms" p = .num q.bathrooms

/-- Specification predicate `price_ok`: the price is at least `min_price` when
that is set, and at most `max_price` when that is set. -/
def price_ok (B : Builtins) (q : PropertyQuery) (p : JSValue) : Prop :=
  (q.min_price.truthy = true → priceAtLeast B p q.min_price) ∧
  (q.max_price.truthy = true → priceAtMost B p q.max_price)

/-- A record is retained when the three predicates hold. -/
def retained (B : Builtins) (q : PropertyQuery) (p : JSValue) : Prop :=
  bedrooms_ok q p ∧ bathrooms_ok q p ∧ price_ok B q p

instance (q : PropertyQuery) (p : JSValue) : Decidable (bedrooms_ok q p) := by
  unfold bedrooms_ok; infer_instance

instance (q : PropertyQuery) (p : JSValue) : Decidable (bathrooms_ok q p) := by
  unfold bathrooms_ok; infer_instance

instance (B : Builtins) (q : PropertyQuery) (p : JSValue) : Decidable (price_ok B q p) := by
  unfold price_ok; infer_instance

instance (B : Builtins) (q : PropertyQuery) (p : JSValue) : Decidable (retained B q p) := by
  unfold retained; infer_instance

/-- An `axios` response whose body carries the records `rs` under `results`. -/
def providerResponse (rs : List JSValue) : JSValue :=
  .obj [("data", .obj [("results", .arr rs)])]

/-- The all-defaults query. -/
def defaultQuery : PropertyQuery :=
  ⟨.fin 1000000, .fin 30000000, .fin 1, .fin 1⟩

/-- The query of Scenario A. -/
def scenarioAQuery : PropertyQuery :=
  ⟨.fin 1000000, .fin 2000000, .fin 3, .fin 1⟩

/-- A listing record with the three fields the filter reads. -/
def listing (price bedrooms bathrooms : ℚ) : JSValue :=
  .obj [("price", .num (.fin price)), ("bedrooms", .num (.fin bedrooms)),
    ("bathrooms", .num (.fin bathrooms))]

/-- An object whose own `toString` is the number 0, as `JSON.parse` builds from
the text `"toString":0` between braces. -/
def unconvertible : JSValue :=
  .obj [("toString", .num (.fin 0))]

/-- The four fields of a candidate that the normalizer coerces. -/
def queryFields : List String :=
  ["min_price", "max_price", "bedrooms", "bathrooms"]

/-! ## Lemmas -/

theorem getProp_of_not_nullish {p : JSValue} (h : isNullish p = false) (key : String) :
    getProp p key = .ok (ownProp key p) := by
  cases p <;> simp_all [isNullish, getProp]

theorem getProp_of_nullish {p : JSValue} (h : isNullish p = true) (key : String) :
    ∃ e, getProp p key = .error e := by
  cases p <;> simp_all [isNullish, getProp]

/-- The coercion returns exactly on the values that convert to a string. -/
theorem toNumber_ok_iff (B : Builtins) (v : JSValue) :
    (∃ n, toNumber B v = .ok n) ↔ stringifies v = true := by
  cases v with
  | arr items =>
    by_cases h : stringifies (JSValue.arr items) = true <;> simp [toNumber, h]
  | obj props =>
    by_cases h : stringifies (JSValue.obj props) = true <;> simp [toNumber, h]
  | _ => simp [toNumber, stringifies]

theorem toNumber_of_stringifies (B : Builtins) {v : JSValue} (h : stringifies v = true) :
    ∃ n, toNumber B v = .ok n :=
  (toNumber_ok_iff B v).mpr h

theorem toNumber_error_of_not_stringifies (B : Builtins) {v : JSValue}
    (h : stringifies v = false) : ∃ e, toNumber B v = .error e := by
  cases hres : toNumber B v with
  | error e => exact ⟨e, rfl⟩
  | ok n =>
    have := (toNumber_ok_iff B v).mp ⟨n, hres⟩
    rw [h] at this
    cases this

theorem strictEqualsNum_iff {v : JSValue} {n : JSNum} (hn : n.truthy = true) :
    strictEqualsNum v n = true ↔ v = .num n := by
  cases v <;> simp [strictEqualsNum]
  rename_i m
  cases m <;> cases n <;> simp_all [JSNum.eq, JSNum.truthy]

theorem strictEqualsNum_eq_decide {v : JSValue} {n : JSNum} (hn : n.truthy = true) :
    strictEqualsNum v n = decide (v = .num n) := by
  rw [Bool.eq_iff_iff, strictEqualsNum_iff hn, decide_eq_true_iff]

theorem priceAtLeast_iff {B : Builtins} {p : JSValue} {x : JSNum}
    (h : toNumber B (ownProp "price" p) = .ok x) (n : JSNum) :
    priceAtLeast B p n ↔ n.le x = true := by
  constructor
  · rintro ⟨y, hy, hle⟩
    rw [h] at hy
    cases hy
    exact hle
  · intro hle
    exact ⟨x, h, hle⟩

theorem priceAtMost_iff {B : Builtins} {p : JSValue} {x : JSNum}
    (h : toNumber B (ownProp "price" p) = .ok x) (n : JSNum) :
    priceAtMost B p n ↔ x.le n = true := by
  constructor
  · rintro ⟨y, hy, hle⟩
    rw [h] at hy
    cases hy
    exact hle
  · intro hle
    exact ⟨x, h, hle⟩

theorem readable_iff (p : JSValue) :
    readable p = true ↔ isNullish p = false ∧ stringifies (ownProp "price" p) = true := by
  simp [readable]

/-- On a readable record the callback does not throw and answers `retained`. -/
theorem filterCallback_ok (B : Builtins) (q : PropertyQuery) {p : JSValue}
    (h : readable p = true) :
    filterCallback B q p = .ok (decide (retained B q p)) := by
  obtain ⟨hn, hs⟩ := (readable_iff p).mp h
  obtain ⟨x, hx⟩ := toNumber_of_stringifies B hs
  unfold filterCallback
  simp only [getProp_of_not_nullish hn, geNum, leNum]
  cases hb : q.bedrooms.truthy <;> cases ha : q.bathrooms.truthy <;>
    cases hm : q.min_price.truthy <;> cases hxt : q.max_price.truthy <;>
    simp [retained, bedrooms_ok, bathrooms_ok, price_ok, hb, ha, hm, hxt, hx,
      priceAtLeast_iff hx, priceAtMost_iff hx,
      bind, Except.bind, pure, Except.pure, strictEqualsNum_eq_decide] <;>
    cases q.min_price.le x <;>
    simp only [Bool.and_assoc, Bool.and_false, Bool.and_true, Bool.false_eq_true, if_true,
      if_false, Bool.true_and, Bool.false_and]

/-- A record the callback keeps satisfies the three predicates. -/
theorem filterCallback_true_retained {B : Builtins} {q : PropertyQuery} {p : JSValue}
    (h : filterCallback B q p = .ok true) : retained B q p := by
  cases hr : readable p with
  | true =>
    rw [filterCallback_ok B q hr] at h
    simpa using h
  | false =>
    cases hn : isNullish p with
    | true =>
      have hp : p = .undefined ∨ p = .null := by
        cases p <;> simp_all [isNullish]
      cases hb : q.bedrooms.truthy <;> cases ha : q.bathrooms.truthy <;>
        cases hm : q.min_price.truthy <;> cases hx : q.max_price.truthy <;>
        rcases hp with rfl | rfl <;>
        simp_all [filterCallback, getProp, bind, Except.bind, pure, Except.pure, retained,
          bedrooms_ok, bathrooms_ok, price_ok]
    | false =>
      have hs : stringifies (ownProp "price" p) = false := by
        simpa [readable, hn] using hr
      obtain ⟨e, he⟩ := toNumber_error_of_not_stringifies B hs
      unfold filterCallback at h
      simp only [getProp_of_not_nullish hn, geNum, leNum, he] at h
      cases hb : q.bedrooms.truthy <;> cases ha : q.bathrooms.truthy <;>
        cases hm : q.min_price.truthy <;> cases hx : q.max_price.truthy <;>
        simp_all [bind, Except.bind, pure, Except.pure, retained, bedrooms_ok, bathrooms_ok,
          price_ok, strictEqualsNum_eq_decide]

/-- With truthy `bedrooms` and `min_price` criteria the callback throws on every
record that is not readable. -/
theorem filterCallback_error_of_unreadable (B : Builtins) {q : PropertyQuery} {p : JSValue}
    (hb : q.bedrooms.truthy = true) (hm : q.min_price.truthy = true)
    (hr : readable p = false) :
    ∃ e, filterCallback B q p = .error e := by
  cases hn : isNullish p with
  | true =>
    have hp : p = .undefined ∨ p = .null := by
      cases p <;> simp_all [isNullish]
    rcases hp with rfl | rfl <;>
      simp [filterCallback, getProp, bind, Except.bind, hb]
  | false =>
    have hs : stringifies (ownProp "price" p) = false := by
      simpa [readable, hn] using hr
    obtain ⟨e, he⟩ := toNumber_error_of_not_stringifies B hs
    refine ⟨e, ?_⟩
    unfold filterCallback
    cases ha : q.bathrooms.truthy <;>
      simp [getProp_of_not_nullish hn, geNum, he, hb, hm, ha, bind, Except.bind, pure,
        Except.pure]

theorem arrayFilter_eq_filter (cb : JSValue → Except JSError Bool) (f : JSValue → Bool)
    (rs : List JSValue) (h : ∀ p ∈ rs, cb p = .ok (f p)) :
    arrayFilter cb rs = .ok (rs.filter f) := by
  induction rs with
  | nil => rfl
  | cons p rest ih =>
    have hp := h p (List.mem_cons_self p rest)
    have hrest := ih (fun x hx => h x (List.mem_cons_of_mem p hx))
    simp only [arrayFilter, hp, hrest, bind, Except.bind, pure, Except.pure, List.filter_cons]

theorem arrayFilter_ok_all {cb : JSValue → Except JSError Bool} {rs out : List JSValue}
    (h : arrayFilter cb rs = .ok out) : ∀ p ∈ rs, ∃ b, cb p = .ok b := by
  induction rs generalizing out with
  | nil => intro p hp; cases hp
  | cons x rest ih =>
    intro p hp
    simp only [arrayFilter, bind, Except.bind] at h
    cases hx : cb x with
    | error e => simp [hx] at h
    | ok b =>
      cases hr : arrayFilter cb rest with
      | error e => simp [hx, hr] at h
      | ok tail =>
        rcases List.mem_cons.mp hp with rfl | hmem
        · exact ⟨b, hx⟩
        · exact ih hr p hmem

theorem arrayFilter_idem {cb : JSValue → Except JSError Bool} {rs out : List JSValue}
    (h : arrayFilter cb rs = .ok out) : arrayFilter cb out = .ok out := by
  induction rs generalizing out with
  | nil =>
    simp only [arrayFilter, Except.ok.injEq] at h
    subst h; rfl
  | cons x rest ih =>
    simp only [arrayFilter, bind, Except.bind] at h
    cases hx : cb x with
    | error e => simp [hx] at h
    | ok b =>
      cases hr : arrayFilter cb rest with
      | error e => simp [hx, hr] at h
      | ok tail =>
        simp only [hx, hr, pure, Except.pure, Except.ok.injEq] at h
        subst h
        cases b with
        | false => simpa using ih hr
        | true =>
          simp only [if_true, arrayFilter, hx, ih hr, bind, Except.bind, pure, Except.pure]

theorem fetchTry_providerResponse (B : Builtins) (q : PropertyQuery) (rs : List JSValue) :
    fetchTry B q (.ok (providerResponse rs)) = arrayFilter (filterCallback B q) rs := by
  rfl

theorem postFilter_eq_filter (B : Builtins) (q : PropertyQuery) (rs : List JSValue)
    (hrs : ∀ p ∈ rs, readable p = true) :
    arrayFilter (filterCallback B q) rs = .ok (rs.filter (fun p => decide (retained B q p))) :=
  arrayFilter_eq_filter _ _ rs (fun p hp => filterCallback_ok B q (hrs p hp))

theorem llmApi_error {chain : JSValue → Except JSError JSValue} {d : JSValue} {e : JSError}
    (h : chain d = .error e) : llmApi chain d = .error e := by
  simp only [llmApi, h, bind, Except.bind]

theorem parseProperties_of_normalized (B : Builtins) (chain : JSValue → Except JSError JSValue)
    (axios : PropertyQuery → Except JSError JSValue) (body cand : JSValue) (q : PropertyQuery)
    (hpost : (optProp body "post").truthy = true)
    (hllm : llmApi chain (optProp body "post") = .ok cand)
    (hq : propertiesRequirements B cand = .ok q) :
    parseProperties B chain axios body = ⟨200, .arr (fetchProperties B axios q)⟩ := by
  simp only [parseProperties, searchSteps, hpost, hllm, hq, Bool.not_true, Bool.false_eq_true,
    if_false, bind, Except.bind, pure, Except.pure]

theorem parseProperties_of_llm_error (B : Builtins) (chain : JSValue → Except JSError JSValue)
    (axios : PropertyQuery → Except JSError JSValue) (body : JSValue) (e : JSError)
    (hpost : (optProp body "post").truthy = true)
    (hllm : llmApi chain (optProp body "post") = .error e) :
    parseProperties B chain axios body = ⟨500, .obj [("error", .str "Internal Server Error")]⟩ := by
  simp only [parseProperties, searchSteps, hpost, hllm, Bool.not_true, Bool.false_eq_true,
    if_false, bind, Except.bind]

theorem parseProperties_of_normalizer_error (B : Builtins)
    (chain : JSValue → Except JSError JSValue)
    (axios : PropertyQuery → Except JSError JSValue) (body cand : JSValue) (e : JSError)
    (hpost : (optProp body "post").truthy = true)
    (hllm : llmApi chain (optProp body "post") = .ok cand)
    (hq : propertiesRequirements B cand = .error e) :
    parseProperties B chain axios body = ⟨500, .obj [("error", .str "Internal Server Error")]⟩ := by
  simp only [parseProperties, searchSteps, hpost, hllm, hq, Bool.not_true, Bool.false_eq_true,
    if_false, bind, Except.bind]

/-- The normalizer returns exactly when its four coercions return, with the
four fields `coercion || default`. -/
theorem propertiesRequirements_ok_iff (B : Builtins) (cand : JSValue) (q : PropertyQuery) :
    propertiesRequirements B cand = .ok q ↔
      ∃ n1 n2 n3 n4,
        toNumber B (optProp cand "min_price") = .ok n1 ∧
        toNumber B (optProp cand "max_price") = .ok n2 ∧
        toNumber B (optProp cand "bedrooms") = .ok n3 ∧
        toNumber B (optProp cand "bathrooms") = .ok n4 ∧
        q = ⟨numOr n1 (.fin 1000000), numOr n2 (.fin 30000000), numOr n3 (.fin 1),
          numOr n4 (.fin 1)⟩ := by
  unfold propertiesRequirements
  cases h1 : toNumber B (optProp cand "min_price") <;>
    cases h2 : toNumber B (optProp cand "max_price") <;>
    cases h3 : toNumber B (optProp cand "bedrooms") <;>
    cases h4 : toNumber B (optProp cand "bathrooms") <;>
    simp [bind, Except.bind, pure, Except.pure, eq_comm]

/-- The normalizer returns on a candidate whose four field values convert. -/
theorem propertiesRequirements_of_stringifies (B : Builtins) (cand : JSValue)
    (h : ∀ key ∈ queryFields, stringifies (optProp cand key) = true) :
    ∃ q, propertiesRequirements B cand = .ok q := by
  obtain ⟨n1, h1⟩ := toNumber_of_stringifies B (h "min_price" (by simp [queryFields]))
  obtain ⟨n2, h2⟩ := toNumber_of_stringifies B (h "max_price" (by simp [queryFields]))
  obtain ⟨n3, h3⟩ := toNumber_of_stringifies B (h "bedrooms" (by simp [queryFields]))
  obtain ⟨n4, h4⟩ := toNumber_of_stringifies B (h "bathrooms" (by simp [queryFields]))
  exact ⟨_, (propertiesRequirements_ok_iff B cand _).mpr ⟨n1, n2, n3, n4, h1, h2, h3, h4, rfl⟩⟩

theorem numOr_truthy (n d : JSNum) (hd : d.truthy = true) : (numOr n d).truthy = true := by
  unfold numOr
  split <;> assumption

theorem numOr_of_truthy {n : JSNum} (d : JSNum) (h : n.truthy = true) : numOr n d = n := by
  simp [numOr, h]

theorem numOr_of_falsy {n : JSNum} (d : JSNum) (h : n.truthy = false) : numOr n d = d := by
  simp [numOr, h]

theorem truthy_iff (n : JSNum) : n.truthy = true ↔ n ≠ .nan ∧ n ≠ .fin 0 := by
  cases n <;> simp [JSNum.truthy]

theorem falsy_iff (n : JSNum) : n.truthy = false ↔ n = .nan ∨ n = .fin 0 := by
  cases n <;> simp [JSNum.truthy]

theorem jsLe_trans {a b c : JSNum} (hab : a.le b = true) (hbc : b.le c = true) :
    a.le c = true := by
  cases a <;> cases b <;> cases c <;> simp_all [JSNum.le]
  exact le_trans hab hbc

theorem jsLe_false_of_lt {a b : JSNum} (h : a.lt b = true) : b.le a = false := by
  cases a <;> cases b <;> simp_all [JSNum.le, JSNum.lt]

theorem arrayFilter_mem_true {cb : JSValue → Except JSError Bool} {rs out : List JSValue}
    (h : arrayFilter cb rs = .ok out) : ∀ p ∈ out, p ∈ rs ∧ cb p = .ok true := by
  induction rs generalizing out with
  | nil =>
    simp only [arrayFilter, Except.ok.injEq] at h
    subst h
    intro p hp; cases hp
  | cons x rest ih =>
    simp only [arrayFilter, bind, Except.bind] at h
    cases hx : cb x with
    | error e => simp [hx] at h
    | ok b =>
      cases hr : arrayFilter cb rest with
      | error e => simp [hx, hr] at h
      | ok tail =>
        simp only [hx, hr, pure, Except.pure, Except.ok.injEq] at h
        subst h
        intro p hp
        cases b with
        | false =>
          have := ih hr p (by simpa using hp)
          exact ⟨List.mem_cons_of_mem x this.1, this.2⟩
        | true =>
          simp only [if_true, List.mem_cons] at hp
          rcases hp with rfl | hmem
          · exact ⟨List.mem_cons_self _ _, hx⟩
          · have := ih hr p hmem
            exact ⟨List.mem_cons_of_mem x this.1, this.2⟩

/-- What `fetchProperties` filters depends on the response only: either the
`try` block throws for every query, or it filters one array of records. -/
theorem fetchTry_cases (B : Builtins) (r : Except JSError JSValue) :
    (∃ e, ∀ q, fetchTry B q r = .error e) ∨
    (∃ items, ∀ q, fetchTry B q r = arrayFilter (filterCallback B q) items) := by
  cases r with
  | error e => exact Or.inl ⟨e, fun q => rfl⟩
  | ok resp =>
    cases h1 : getProp resp "data" with
    | error e => exact Or.inl ⟨e, fun q => by simp [fetchTry, h1, bind, Except.bind]⟩
    | ok data =>
      cases h2 : getProp data "results" with
      | error e => exact Or.inl ⟨e, fun q => by simp [fetchTry, h1, h2, bind, Except.bind]⟩
      | ok found =>
        cases h3 : (if found.truthy then found else JSValue.arr []) with
        | arr items =>
          exact Or.inr ⟨items, fun q => by simp [fetchTry, h1, h2, h3, bind, Except.bind]⟩
        | _ =>
          exact Or.inl ⟨"TypeError: results.filter is not a function",
            fun q => by simp [fetchTry, h1, h2, h3, bind, Except.bind]⟩

/-- A runtime for the concrete examples: blank strings are zero, digit strings
are their value, no other string is a number. -/
def sampleRuntime : Builtins where
  StringToNumber := fun s =>
    if s.trim = "" then .fin 0
    else match s.trim.toNat? with
      | some n => .fin n
      | none => .nan
  ObjectToString := fun _ => "[object Object]"

/-- A record whose `price` is a number is readable. -/
theorem readable_of_price_num {p : JSValue} {x : JSNum} (hn : isNullish p = false)
    (hp : ownProp "price" p = .num x) : readable p = true := by
  simp [readable, hn, hp, stringifies]

/-- A record whose `price` is an object with an own `toString` makes the
comparison with a set `min_price` throw: the filter call fails and
`fetchProperties` returns the empty list, the matching records included. -/
theorem postFilter_throws_on_unconvertible_price (B : Builtins) :
    (∃ e, arrayFilter (filterCallback B scenarioAQuery)
      [listing 1800000 3 1,
        .obj [("price", unconvertible), ("bedrooms", .num (.fin 3)),
          ("bathrooms", .num (.fin 1))]] = .error e) ∧
    fetchProperties B (fun _ => .ok (providerResponse
      [listing 1800000 3 1,
        .obj [("price", unconvertible), ("bedrooms", .num (.fin 3)),
          ("bathrooms", .num (.fin 1))]])) scenarioAQuery = [] :=
  ⟨⟨_, rfl⟩, rfl⟩

/-! ## The claims -/

/-- C1: on listing records (a property can be read from each and its `price`
coerces to a number, as every numeric price does), the post-filter of
`fetchProperties` does not throw and returns the records for which
`bedrooms_ok`, `bathrooms_ok` and `price_ok` all hold, in their input order; a
record with `bedrooms` 3 is never returned when the query asks for 4. -/
theorem postFilter_retains_exactly (B : Builtins) (q : PropertyQuery) (rs : List JSValue)
    (hrs : ∀ p ∈ rs, readable p = true) :
    ∃ out, arrayFilter (filterCallback B q) rs = .ok out ∧
      fetchProperties B (fun _ => .ok (providerResponse rs)) q = out ∧
      out = rs.filter (fun p => decide (retained B q p)) ∧
      out.Sublist rs ∧
      (∀ p, p ∈ out ↔ p ∈ rs ∧ bedrooms_ok q p ∧ bathrooms_ok q p ∧ price_ok B q p) ∧
      (q.bedrooms = .fin 4 → ∀ p, ownProp "bedrooms" p = .num (.fin 3) → p ∉ out) := by
  have h := postFilter_eq_filter B q rs hrs
  refine ⟨_, h, ?_, rfl, List.filter_sublist rs, ?_, ?_⟩
  · simp only [fetchProperties, fetchTry_providerResponse, h]
  · intro p
    simp only [List.mem_filter, decide_eq_true_eq, retained]
  · intro hq p hp hmem
    have hret := (List.mem_filter.mp hmem).2
    simp only [decide_eq_true_eq, retained, bedrooms_ok, hq, hp] at hret
    rcases hret.1 with h1 | h1
    · simp [JSNum.truthy] at h1
    · injection h1 with h2
      injection h2 with h3
      norm_num at h3

/-- A query for four bedrooms, one bathroom and a price from 1000000 to
2000000. -/
def fourBedroomQuery : PropertyQuery :=
  ⟨.fin 1000000, .fin 2000000, .fin 4, .fin 1⟩

/-- Four listings: the second has three bedrooms, the third is too dear. -/
def fourListings : List JSValue :=
  [listing 1800000 4 1, listing 1900000 3 1, listing 2500000 4 1, listing 1200000 4 1]

/-- Witness of C1: of four listings filtered with the four-bedroom query, the
first and the last are returned, in that order; the listing with three
bedrooms and the one above the price range are dropped. -/
theorem postFilter_retains_exactly_witness :
    (∀ p ∈ fourListings, readable p = true) ∧
    arrayFilter (filterCallback sampleRuntime fourBedroomQuery) fourListings =
      .ok [listing 1800000 4 1, listing 1200000 4 1] ∧
    fetchProperties sampleRuntime (fun _ => .ok (providerResponse fourListings))
      fourBedroomQuery = [listing 1800000 4 1, listing 1200000 4 1] ∧
    [listing 1800000 4 1, listing 1200000 4 1] =
      fourListings.filter (fun p => decide (retained sampleRuntime fourBedroomQuery p)) ∧
    [listing 1800000 4 1, listing 1200000 4 1].Sublist fourListings ∧
    fourBedroomQuery.bedrooms = .fin 4 ∧
    ownProp "bedrooms" (listing 1900000 3 1) = .num (.fin 3) ∧
    listing 1900000 3 1 ∉ [listing 1800000 4 1, listing 1200000 4 1] ∧
    ¬ price_ok sampleRuntime fourBedroomQuery (listing 2500000 4 1) ∧
    listing 2500000 4 1 ∉ [listing 1800000 4 1, listing 1200000 4 1] := by
  have hr : ∀ p ∈ fourListings, readable p = true := by
    intro p hp
    simp only [fourListings, List.mem_cons, List.mem_singleton, List.not_mem_nil,
      or_false] at hp
    rcases hp with rfl | rfl | rfl | rfl <;> rfl
  obtain ⟨out, h1, h2, h3, h4, h5, h6⟩ :=
    postFilter_retains_exactly sampleRuntime fourBedroomQuery fourListings hr
  have hval : arrayFilter (filterCallback sampleRuntime fourBedroomQuery) fourListings =
      .ok [listing 1800000 4 1, listing 1200000 4 1] := rfl
  have hout : out = [listing 1800000 4 1, listing 1200000 4 1] := by
    exact Except.ok.inj (h1.symm.trans hval)
  subst hout
  have hprice : ¬ price_ok sampleRuntime fourBedroomQuery (listing 2500000 4 1) := by
    intro hp
    obtain ⟨x, hx, hle⟩ := hp.2 (by decide)
    have hx2 : toNumber sampleRuntime (ownProp "price" (listing 2500000 4 1)) =
        .ok (.fin 2500000) := rfl
    rw [hx2] at hx
    injection hx with hx
    subst hx
    simp only [fourBedroomQuery, JSNum.le, decide_eq_true_eq] at hle
    norm_num at hle
  exact ⟨hr, h1, h2, h3, h4, rfl, rfl, h6 rfl _ rfl, hprice,
    fun hmem => hprice ((h5 _).mp hmem).2.2.2⟩

/-- The two records of Scenario C. -/
def scenarioCRecords : List JSValue :=
  [listing 1800000 3 2, listing 2500000 3 2]

/-- C2, as stated, fails: for no runtime does filtering the Scenario C records
with the Scenario A query return the list holding only the first record. -/
theorem scenarioC_first_record_not_returned :
    ¬ ∃ B : Builtins, arrayFilter (filterCallback B scenarioAQuery) scenarioCRecords
      = .ok [listing 1800000 3 2] := by
  rintro ⟨B, h⟩
  have h2 : arrayFilter (filterCallback B scenarioAQuery) scenarioCRecords = .ok [] := rfl
  rw [h2] at h
  simp at h

/-- C2, amended: filtering the Scenario C records with the Scenario A query
returns the empty list, neither record having `bathrooms` equal to 1. -/
theorem scenarioC_returns_empty (B : Builtins) :
    arrayFilter (filterCallback B scenarioAQuery) scenarioCRecords = .ok [] ∧
    fetchProperties B (fun _ => .ok (providerResponse scenarioCRecords)) scenarioAQuery = [] ∧
    (∀ p ∈ scenarioCRecords, ¬ bathrooms_ok scenarioAQuery p) := by
  refine ⟨rfl, rfl, ?_⟩
  intro p hp
  simp only [scenarioCRecords, List.mem_cons, List.mem_singleton, List.not_mem_nil, or_false] at hp
  rcases hp with rfl | rfl <;>
    simp [bathrooms_ok, scenarioAQuery, JSNum.truthy, listing, ownProp, List.lookup]

/-- A chain whose invocation fails, as when the model answer does not parse. -/
def failingChain : JSValue → Except JSError JSValue :=
  fun _ => .error "OutputParserException: Failed to parse"

/-- A chain that answers the candidate of Scenario A. -/
def scenarioAChain : JSValue → Except JSError JSValue :=
  fun _ => .ok (.obj [("bedrooms", .num (.fin 3)), ("max_price", .num (.fin 2000000))])

/-- A request body carrying a search text. -/
def searchBody : JSValue :=
  .obj [("post", .str "3 bedroom house under $2,000,000")]

/-- A provider that answers two listings whatever the query. -/
def sampleProvider : PropertyQuery → Except JSError JSValue :=
  fun _ => .ok (providerResponse [listing 1800000 3 1, listing 1500000 1 1])

/-- A provider whose request fails. -/
def failingProvider : PropertyQuery → Except JSError JSValue :=
  fun _ => .error "Network Error"

/-- C3, as stated, fails: when the extraction fails for a request that carries
text, for no runtime and no provider does the handler answer with the listing
filtered by the all-defaults query. -/
theorem extraction_failure_not_recovered :
    ¬ ∃ (B : Builtins) (axios : PropertyQuery → Except JSError JSValue),
      parseProperties B failingChain axios searchBody =
        ⟨200, .arr (fetchProperties B axios defaultQuery)⟩ := by
  rintro ⟨B, axios, h⟩
  have h2 : parseProperties B failingChain axios searchBody =
      ⟨500, .obj [("error", .str "Internal Server Error")]⟩ := rfl
  rw [h2] at h
  have h3 := congrArg HttpResponse.status h
  simp at h3

/-- C3, amended: for a request that carries text, a failure of the extraction
step makes the handler answer status 500 with the body
`error: Internal Server Error`; an extraction that returns an empty candidate
(`undefined`, `null` or an object without fields) is normalized to the
all-defaults query and the handler answers status 200 with the listing filtered
by that query. -/
theorem extraction_failure_is_500 (B : Builtins) (chain : JSValue → Except JSError JSValue)
    (axios : PropertyQuery → Except JSError JSValue) (body : JSValue)
    (hpost : (optProp body "post").truthy = true) :
    (∀ e, chain (optProp body "post") = .error e →
      parseProperties B chain axios body =
        ⟨500, .obj [("error", .str "Internal Server Error")]⟩) ∧
    (∀ cand, chain (optProp body "post") = .ok cand →
      cand = .undefined ∨ cand = .null ∨ cand = .obj [] →
      propertiesRequirements B cand = .ok defaultQuery ∧
      parseProperties B chain axios body =
        ⟨200, .arr (fetchProperties B axios defaultQuery)⟩) := by
  constructor
  · intro e he
    exact parseProperties_of_llm_error B chain axios body e hpost (llmApi_error he)
  · intro cand hc hempty
    have hllm : llmApi chain (optProp body "post") = .ok cand := by
      rcases hempty with rfl | rfl | rfl <;>
        simp only [llmApi, hc, bind, Except.bind] <;> rfl
    have hq : propertiesRequirements B cand = .ok defaultQuery := by
      rcases hempty with rfl | rfl | rfl <;> rfl
    exact ⟨hq, parseProperties_of_normalized B chain axios body cand _ hpost hllm hq⟩

/-- A chain whose invocation resolves to `undefined`. -/
def emptyChain : JSValue → Except JSError JSValue :=
  fun _ => .ok .undefined

/-- Witness of C3 amended: on a request with text, the failing chain is answered
500, and a chain resolving to `undefined` is answered 200 with the listing
filtered by the all-defaults query, here the one listing with one bedroom. -/
theorem extraction_failure_is_500_witness :
    (optProp searchBody "post").truthy = true ∧
    parseProperties sampleRuntime failingChain sampleProvider searchBody =
      ⟨500, .obj [("error", .str "Internal Server Error")]⟩ ∧
    propertiesRequirements sampleRuntime .undefined = .ok defaultQuery ∧
    parseProperties sampleRuntime emptyChain sampleProvider searchBody =
      ⟨200, .arr (fetchProperties sampleRuntime sampleProvider defaultQuery)⟩ ∧
    fetchProperties sampleRuntime sampleProvider defaultQuery = [listing 1500000 1 1] :=
  have h1 := (extraction_failure_is_500 sampleRuntime failingChain sampleProvider searchBody
    (by decide)).1 _ rfl
  have h2 := (extraction_failure_is_500 sampleRuntime emptyChain sampleProvider searchBody
    (by decide)).2 .undefined rfl (Or.inl rfl)
  ⟨by decide, h1, h2.1, h2.2, rfl⟩

/-- C4, as stated, fails: the Scenario A query narrows the price range of the
all-defaults query and names a bedroom count, yet on the one listing
`price 1800000, bedrooms 3, bathrooms 1` its result is, for no runtime, a
subsequence of the all-defaults result (which is empty). -/
theorem defaults_not_superset_of_scenarioA :
    ¬ ∃ B : Builtins,
      (fetchProperties B (fun _ => .ok (providerResponse [listing 1800000 3 1]))
        scenarioAQuery).Sublist
      (fetchProperties B (fun _ => .ok (providerResponse [listing 1800000 3 1]))
        defaultQuery) := by
  rintro ⟨B, h⟩
  have h1 : fetchProperties B (fun _ => .ok (providerResponse [listing 1800000 3 1]))
      scenarioAQuery = [listing 1800000 3 1] := rfl
  have h2 : fetchProperties B (fun _ => .ok (providerResponse [listing 1800000 3 1]))
      defaultQuery = [] := rfl
  rw [h1, h2] at h
  simp at h

/-- C4, amended: for every provider response and every query whose `bedrooms`
and `bathrooms` are 1, whose `min_price` is at least 1000000 and whose
`max_price` is non-zero and at most 30000000, the result of `fetchProperties` is
an order-preserving subsequence of its result for the all-defaults query on the
same response. -/
theorem defaults_superset_of_narrower_price (B : Builtins) (r : Except JSError JSValue)
    (q : PropertyQuery) (hbed : q.bedrooms = .fin 1) (hbath : q.bathrooms = .fin 1)
    (hmin : (JSNum.fin 1000000).le q.min_price = true)
    (hmax : q.max_price.le (.fin 30000000) = true) (hset : q.max_price.truthy = true) :
    (fetchProperties B (fun _ => r) q).Sublist (fetchProperties B (fun _ => r) defaultQuery) := by
  have hqb : q.bedrooms.truthy = true := by rw [hbed]; decide
  have hqmin : q.min_price.truthy = true := by
    cases hq : q.min_price <;> simp_all [JSNum.le, JSNum.truthy]
    intro h0
    rw [h0] at hmin
    norm_num at hmin
  have himp : ∀ p, retained B q p → retained B defaultQuery p := by
    intro p hp
    obtain ⟨h1, h2, h3, h4⟩ := hp
    refine ⟨?_, ?_, ?_, ?_⟩
    · simpa only [bedrooms_ok, hbed, defaultQuery] using h1
    · simpa only [bathrooms_ok, hbath, defaultQuery] using h2
    · intro _
      obtain ⟨x, hx, hle⟩ := h3 hqmin
      exact ⟨x, hx, jsLe_trans hmin hle⟩
    · intro _
      obtain ⟨x, hx, hle⟩ := h4 hset
      exact ⟨x, hx, jsLe_trans hle hmax⟩
  unfold fetchProperties
  rcases fetchTry_cases B r with ⟨e, he⟩ | ⟨items, hitems⟩
  · simp only [he]
    exact List.Sublist.refl _
  · simp only [hitems]
    by_cases hall : ∀ p ∈ items, readable p = true
    · rw [postFilter_eq_filter B q items hall, postFilter_eq_filter B defaultQuery items hall]
      apply List.monotone_filter_right
      intro p hp
      simpa using himp p (by simpa using hp)
    · have hex : ∃ p ∈ items, readable p = false := by
        by_contra hcon
        apply hall
        intro p hp
        cases hn : readable p with
        | true => rfl
        | false => exact absurd ⟨p, hp, hn⟩ hcon
      obtain ⟨p, hp, hn⟩ := hex
      have herr : ∀ q2 : PropertyQuery, q2.bedrooms.truthy = true →
          q2.min_price.truthy = true →
          ∃ e, arrayFilter (filterCallback B q2) items = .error e := by
        intro q2 hq2 hm2
        cases hres : arrayFilter (filterCallback B q2) items with
        | error e => exact ⟨e, rfl⟩
        | ok out =>
          obtain ⟨b, hb⟩ := arrayFilter_ok_all hres p hp
          obtain ⟨e, he⟩ := filterCallback_error_of_unreadable B hq2 hm2 hn
          rw [he] at hb
          cases hb
      obtain ⟨e1, he1⟩ := herr q hqb hqmin
      obtain ⟨e2, he2⟩ := herr defaultQuery (by decide) (by decide)
      simp only [he1, he2]
      exact List.Sublist.refl _

/-- Witness of C4 amended: a query with the default counts and the price range
1500000 to 2000000, on a response with two listings. -/
theorem defaults_superset_of_narrower_price_witness :
    (fetchProperties sampleRuntime
      (fun _ => .ok (providerResponse [listing 1800000 1 1, listing 1200000 1 1]))
      ⟨.fin 1500000, .fin 2000000, .fin 1, .fin 1⟩).Sublist
    (fetchProperties sampleRuntime
      (fun _ => .ok (providerResponse [listing 1800000 1 1, listing 1200000 1 1]))
      defaultQuery) :=
  defaults_superset_of_narrower_price sampleRuntime
    (.ok (providerResponse [listing 1800000 1 1, listing 1200000 1 1]))
    ⟨.fin 1500000, .fin 2000000, .fin 1, .fin 1⟩ rfl rfl (by decide) (by decide) (by decide)

/-- C5: the filter is idempotent for every query. A filter call that returns,
returns a list that a second call with the same query returns unchanged; on
readable records the first call does return; and `fetchProperties` applied to a
response carrying its own result returns that result. -/
theorem postFilter_idempotent (B : Builtins) (q : PropertyQuery) (rs : List JSValue) :
    (∀ out, arrayFilter (filterCallback B q) rs = .ok out →
      arrayFilter (filterCallback B q) out = .ok out) ∧
    ((∀ p ∈ rs, readable p = true) →
      ∃ out, arrayFilter (filterCallback B q) rs = .ok out ∧
        arrayFilter (filterCallback B q) out = .ok out) ∧
    fetchProperties B (fun _ => .ok (providerResponse
        (fetchProperties B (fun _ => .ok (providerResponse rs)) q))) q =
      fetchProperties B (fun _ => .ok (providerResponse rs)) q := by
  refine ⟨fun out h => arrayFilter_idem h, ?_, ?_⟩
  · intro hrs
    have h := postFilter_eq_filter B q rs hrs
    exact ⟨_, h, arrayFilter_idem h⟩
  · simp only [fetchProperties, fetchTry_providerResponse]
    cases h : arrayFilter (filterCallback B q) rs with
    | error e => rfl
    | ok out => simp only [arrayFilter_idem h]

/-- Instance of C5: the four listings filtered twice with the four-bedroom
query give the same two listings as filtered once. -/
theorem postFilter_idempotent_instance :
    arrayFilter (filterCallback sampleRuntime fourBedroomQuery) fourListings =
      .ok [listing 1800000 4 1, listing 1200000 4 1] ∧
    arrayFilter (filterCallback sampleRuntime fourBedroomQuery)
      [listing 1800000 4 1, listing 1200000 4 1] =
      .ok [listing 1800000 4 1, listing 1200000 4 1] :=
  ⟨rfl, (postFilter_idempotent sampleRuntime fourBedroomQuery fourListings).1 _ rfl⟩

/-- The rule of the specification for one field: `v` is the coercion `n` of the
candidate's value when `n` is neither `NaN` nor zero, and the default `d`
otherwise. -/
def coercedOrDefault (n d v : JSNum) : Prop :=
  (n ≠ .nan ∧ n ≠ .fin 0 → v = n) ∧ (n = .nan ∨ n = .fin 0 → v = d)

theorem numOr_coercedOrDefault (n d : JSNum) : coercedOrDefault n d (numOr n d) := by
  constructor
  · intro h
    exact numOr_of_truthy d ((truthy_iff n).mpr h)
  · intro h
    exact numOr_of_falsy d ((falsy_iff n).mpr h)

theorem coercedOrDefault_iff (n d v : JSNum) : coercedOrDefault n d v ↔ v = numOr n d := by
  constructor
  · intro h
    cases ht : n.truthy with
    | true => rw [numOr_of_truthy d ht]; exact h.1 ((truthy_iff n).mp ht)
    | false => rw [numOr_of_falsy d ht]; exact h.2 ((falsy_iff n).mp ht)
  · rintro rfl
    exact numOr_coercedOrDefault n d

/-- C6: the normalizer returns a query exactly when the four coercions return,
and each field is then the numeric coercion of the candidate's value when that
is neither `NaN` nor zero and the schema default (1000000, 30000000, 1, 1)
otherwise; it returns whenever the four values convert; an absent, `null`,
zero or non-numeric value coerces and gives the default; the candidate of
Scenario A normalizes to the Scenario A query. -/
theorem normalizer_coerces_or_defaults (B : Builtins) (cand : JSValue) :
    (∀ q, propertiesRequirements B cand = .ok q ↔
      ∃ n1 n2 n3 n4,
        toNumber B (optProp cand "min_price") = .ok n1 ∧
        toNumber B (optProp cand "max_price") = .ok n2 ∧
        toNumber B (optProp cand "bedrooms") = .ok n3 ∧
        toNumber B (optProp cand "bathrooms") = .ok n4 ∧
        coercedOrDefault n1 (.fin 1000000) q.min_price ∧
        coercedOrDefault n2 (.fin 30000000) q.max_price ∧
        coercedOrDefault n3 (.fin 1) q.bedrooms ∧
        coercedOrDefault n4 (.fin 1) q.bathrooms) ∧
    ((∀ key ∈ queryFields, stringifies (optProp cand key) = true) →
      ∃ q, propertiesRequirements B cand = .ok q) ∧
    (∀ x : JSValue,
      (x = .undefined ∨ x = .null ∨ x = .num (.fin 0) ∨ x = .num .nan ∨
        ∃ t, x = .str t ∧ B.StringToNumber t = .nan) →
      ∃ n, toNumber B x = .ok n ∧ ∀ d v, coercedOrDefault n d v → v = d) ∧
    (∀ (props : List (String × JSValue)) (q : PropertyQuery),
      props.lookup "bathrooms" = none →
      propertiesRequirements B (.obj props) = .ok q → q.bathrooms = .fin 1) ∧
    propertiesRequirements B
      (.obj [("bedrooms", .num (.fin 3)), ("max_price", .num (.fin 2000000))]) =
      .ok ⟨.fin 1000000, .fin 2000000, .fin 3, .fin 1⟩ := by
  refine ⟨?_, propertiesRequirements_of_stringifies B cand, ?_, ?_, rfl⟩
  · intro q
    rw [propertiesRequirements_ok_iff]
    constructor
    · rintro ⟨n1, n2, n3, n4, h1, h2, h3, h4, rfl⟩
      exact ⟨n1, n2, n3, n4, h1, h2, h3, h4, numOr_coercedOrDefault _ _,
        numOr_coercedOrDefault _ _, numOr_coercedOrDefault _ _, numOr_coercedOrDefault _ _⟩
    · rintro ⟨n1, n2, n3, n4, h1, h2, h3, h4, c1, c2, c3, c4⟩
      refine ⟨n1, n2, n3, n4, h1, h2, h3, h4, ?_⟩
      cases q
      simp only [PropertyQuery.mk.injEq]
      exact ⟨(coercedOrDefault_iff _ _ _).mp c1, (coercedOrDefault_iff _ _ _).mp c2,
        (coercedOrDefault_iff _ _ _).mp c3, (coercedOrDefault_iff _ _ _).mp c4⟩
  · intro x hx
    rcases hx with rfl | rfl | rfl | rfl | ⟨t, rfl, ht⟩
    · exact ⟨.nan, rfl, fun d v hv => hv.2 (Or.inl rfl)⟩
    · exact ⟨.fin 0, rfl, fun d v hv => hv.2 (Or.inr rfl)⟩
    · exact ⟨.fin 0, rfl, fun d v hv => hv.2 (Or.inr rfl)⟩
    · exact ⟨.nan, rfl, fun d v hv => hv.2 (Or.inl rfl)⟩
    · exact ⟨.nan, by simp [toNumber, ht], fun d v hv => hv.2 (Or.inl rfl)⟩
  · intro props q hnone hq
    obtain ⟨n1, n2, n3, n4, _, _, _, h4, rfl⟩ := (propertiesRequirements_ok_iff B _ q).mp hq
    simp only [optProp, ownProp, hnone, Option.getD_none, toNumber] at h4
    injection h4 with h4
    subst h4
    rfl

/-- A primitive value: anything but an array or an object. -/
def isPrimitive : JSValue → Bool
  | .arr _ => false
  | .obj _ => false
  | _ => true

/-- A candidate whose `min_price` holds an object with an own `toString`. -/
def unconvertibleCandidate : JSValue :=
  .obj [("min_price", unconvertible)]

/-- A chain that answers `unconvertibleCandidate`. -/
def unconvertibleChain : JSValue → Except JSError JSValue :=
  fun _ => .ok unconvertibleCandidate

/-- A candidate with a `null` field, a boolean field and a number. -/
def looseCandidate : JSValue :=
  .obj [("min_price", .null), ("max_price", .bool false), ("bedrooms", .num (.fin 3))]

theorem stringifies_of_isPrimitive {v : JSValue} (h : isPrimitive v = true) :
    stringifies v = true := by
  cases v <;> simp_all [isPrimitive, stringifies]

theorem propertiesRequirements_error_of_not_stringifies (B : Builtins) (cand : JSValue)
    (h : ∃ key ∈ queryFields, stringifies (optProp cand key) = false) :
    ∃ e, propertiesRequirements B cand = .error e := by
  cases hres : propertiesRequirements B cand with
  | error e => exact ⟨e, rfl⟩
  | ok q =>
    obtain ⟨n1, n2, n3, n4, h1, h2, h3, h4, _⟩ := (propertiesRequirements_ok_iff B cand q).mp hres
    obtain ⟨key, hkey, hs⟩ := h
    have hall : stringifies (optProp cand key) = true := by
      simp only [queryFields, List.mem_cons, List.mem_singleton, List.not_mem_nil,
        or_false] at hkey
      rcases hkey with rfl | rfl | rfl | rfl
      · exact (toNumber_ok_iff B _).mp ⟨n1, h1⟩
      · exact (toNumber_ok_iff B _).mp ⟨n2, h2⟩
      · exact (toNumber_ok_iff B _).mp ⟨n3, h3⟩
      · exact (toNumber_ok_iff B _).mp ⟨n4, h4⟩
    rw [hs] at hall
    cases hall

theorem normalized_truthy {B : Builtins} {cand : JSValue} {q : PropertyQuery}
    (h : propertiesRequirements B cand = .ok q) :
    q.min_price.truthy = true ∧ q.max_price.truthy = true ∧
    q.bedrooms.truthy = true ∧ q.bathrooms.truthy = true := by
  obtain ⟨n1, n2, n3, n4, _, _, _, _, rfl⟩ := (propertiesRequirements_ok_iff B cand q).mp h
  exact ⟨numOr_truthy _ _ (by decide), numOr_truthy _ _ (by decide),
    numOr_truthy _ _ (by decide), numOr_truthy _ _ (by decide)⟩

/-- C7, as stated, fails: on a candidate whose `min_price` holds an object with
an own `toString`, for no runtime does the normalizer return a query, and for
no runtime and no provider does the handler answer anything but status 500. -/
theorem normalizer_raises_on_unconvertible :
    (¬ ∃ (B : Builtins) (q : PropertyQuery),
      propertiesRequirements B unconvertibleCandidate = .ok q) ∧
    (¬ ∃ (B : Builtins) (axios : PropertyQuery → Except JSError JSValue),
      (parseProperties B unconvertibleChain axios searchBody).status ≠ 500) := by
  constructor
  · rintro ⟨B, q, h⟩
    have h2 : propertiesRequirements B unconvertibleCandidate =
        .error "TypeError: Cannot convert object to primitive value" := rfl
    rw [h2] at h
    cases h
  · rintro ⟨B, axios, h⟩
    exact h rfl

/-- C7, amended: for every extraction result whose four field values convert
to a primitive (so for `undefined`, `null`, an empty object, and fields that
are absent or hold `null`, booleans, numbers or strings), the normalizer does
not raise and its four fields are numbers, none of them `NaN`, and the handler
answers status 200 once the extraction has returned; when one of the four
values is an object with an own `toString`, or an array holding one, the
coercion raises a `TypeError` and the handler answers status 500. -/
theorem normalizer_total_on_convertible (B : Builtins) (cand : JSValue) :
    ((∀ key ∈ queryFields, stringifies (optProp cand key) = true) →
      ∃ q, propertiesRequirements B cand = .ok q ∧
        q.min_price ≠ .nan ∧ q.max_price ≠ .nan ∧ q.bedrooms ≠ .nan ∧ q.bathrooms ≠ .nan ∧
        (∀ (chain : JSValue → Except JSError JSValue)
            (axios : PropertyQuery → Except JSError JSValue) (body : JSValue),
          (optProp body "post").truthy = true →
          llmApi chain (optProp body "post") = .ok cand →
          (parseProperties B chain axios body).status = 200)) ∧
    ((∀ key ∈ queryFields, isPrimitive (optProp cand key) = true) →
      ∀ key ∈ queryFields, stringifies (optProp cand key) = true) ∧
    (cand = .undefined ∨ cand = .null ∨ cand = .obj [] →
      ∀ key ∈ queryFields, isPrimitive (optProp cand key) = true) ∧
    ((∃ key ∈ queryFields, stringifies (optProp cand key) = false) →
      (∃ e, propertiesRequirements B cand = .error e) ∧
      (∀ (chain : JSValue → Except JSError JSValue)
          (axios : PropertyQuery → Except JSError JSValue) (body : JSValue),
        (optProp body "post").truthy = true →
        llmApi chain (optProp body "post") = .ok cand →
        parseProperties B chain axios body =
          ⟨500, .obj [("error", .str "Internal Server Error")]⟩)) := by
  refine ⟨?_, ?_, ?_, ?_⟩
  · intro hconv
    obtain ⟨q, hq⟩ := propertiesRequirements_of_stringifies B cand hconv
    obtain ⟨t1, t2, t3, t4⟩ := normalized_truthy hq
    refine ⟨q, hq, ((truthy_iff _).mp t1).1, ((truthy_iff _).mp t2).1,
      ((truthy_iff _).mp t3).1, ((truthy_iff _).mp t4).1, ?_⟩
    intro chain axios body hpost hllm
    rw [parseProperties_of_normalized B chain axios body cand q hpost hllm hq]
  · intro hprim key hkey
    exact stringifies_of_isPrimitive (hprim key hkey)
  · intro hc key _
    rcases hc with rfl | rfl | rfl <;> rfl
  · intro hbad
    obtain ⟨e, he⟩ := propertiesRequirements_error_of_not_stringifies B cand hbad
    refine ⟨⟨e, he⟩, ?_⟩
    intro chain axios body hpost hllm
    exact parseProperties_of_normalizer_error B chain axios body cand e hpost hllm he

/-- Instance of C7 amended: a candidate with a `null` field, a field holding
`false`, a numeric field and an absent field is normalized without a raise, the
first, second and fourth fields taking their defaults. -/
theorem normalizer_total_on_convertible_instance :
    (∀ key ∈ queryFields, stringifies (optProp looseCandidate key) = true) ∧
    propertiesRequirements sampleRuntime looseCandidate =
      .ok ⟨.fin 1000000, .fin 30000000, .fin 3, .fin 1⟩ ∧
    ∃ q, propertiesRequirements sampleRuntime looseCandidate = .ok q ∧
      q.min_price ≠ .nan ∧ q.max_price ≠ .nan ∧ q.bedrooms ≠ .nan ∧ q.bathrooms ≠ .nan := by
  have hconv : ∀ key ∈ queryFields, stringifies (optProp looseCandidate key) = true := by
    intro key hkey
    simp only [queryFields, List.mem_cons, List.mem_singleton, List.not_mem_nil,
      or_false] at hkey
    rcases hkey with rfl | rfl | rfl | rfl <;> rfl
  obtain ⟨q, hq, h1, h2, h3, h4, _⟩ :=
    (normalizer_total_on_convertible sampleRuntime looseCandidate).1 hconv
  refine ⟨hconv, ?_, q, hq, h1, h2, h3, h4⟩
  rfl

/-- The candidate of Scenario A. -/
def scenarioACandidate : JSValue :=
  .obj [("bedrooms", .num (.fin 3)), ("max_price", .num (.fin 2000000))]

theorem scenarioACandidate_converts :
    ∀ key ∈ queryFields, stringifies (optProp scenarioACandidate key) = true := by
  intro key hkey
  simp only [queryFields, List.mem_cons, List.mem_singleton, List.not_mem_nil,
    or_false] at hkey
  rcases hkey with rfl | rfl | rfl | rfl <;> rfl

/-- C8: when the request to the listing provider throws, `fetchProperties`
returns the empty list, and the handler, once the extraction has returned a
candidate whose fields convert, answers status 200 with the empty list. -/
theorem provider_failure_gives_empty (B : Builtins) (chain : JSValue → Except JSError JSValue)
    (axios : PropertyQuery → Except JSError JSValue) (body : JSValue)
    (haxios : ∀ q, ∃ e, axios q = .error e) :
    (∀ q, fetchProperties B axios q = []) ∧
    (∀ cand, (optProp body "post").truthy = true →
      llmApi chain (optProp body "post") = .ok cand →
      (∀ key ∈ queryFields, stringifies (optProp cand key) = true) →
      parseProperties B chain axios body = ⟨200, .arr []⟩) := by
  have hfetch : ∀ q, fetchProperties B axios q = [] := by
    intro q
    obtain ⟨e, he⟩ := haxios q
    simp only [fetchProperties, fetchTry, he, bind, Except.bind]
  refine ⟨hfetch, ?_⟩
  intro cand hpost hllm hconv
  obtain ⟨q, hq⟩ := propertiesRequirements_of_stringifies B cand hconv
  rw [parseProperties_of_normalized B chain axios body cand q hpost hllm hq, hfetch]

/-- Witness of C8: the Scenario A extraction against a provider whose request
fails. -/
theorem provider_failure_gives_empty_witness :
    (∀ q, ∃ e, failingProvider q = .error e) ∧
    fetchProperties sampleRuntime failingProvider scenarioAQuery = [] ∧
    parseProperties sampleRuntime scenarioAChain failingProvider searchBody = ⟨200, .arr []⟩ :=
  have h := provider_failure_gives_empty sampleRuntime scenarioAChain failingProvider searchBody
    (fun _ => ⟨_, rfl⟩)
  ⟨fun _ => ⟨_, rfl⟩, h.1 scenarioAQuery,
    h.2 scenarioACandidate (by decide) rfl scenarioACandidate_converts⟩

/-- The constraint `≥ 0` of the data model on a number. -/
def nonNegative (n : JSNum) : Prop :=
  (JSNum.fin 0).le n = true

/-- The constraint "integer ≥ 0" of the data model on a number. -/
def nonNegativeInteger (n : JSNum) : Prop :=
  ∃ k : ℕ, n = .fin k

/-- A positive integer. -/
def positiveInteger (n : JSNum) : Prop :=
  ∃ k : ℕ, 0 < k ∧ n = .fin k

/-- A candidate with a negative `min_price` and two and a half `bedrooms`. -/
def oddCandidate : JSValue :=
  .obj [("min_price", .num (.fin (-5))), ("bedrooms", .num (.fin (5 / 2)))]

/-- The query `oddCandidate` is normalized to. -/
def oddNormalized : PropertyQuery :=
  ⟨.fin (-5), .fin 30000000, .fin (5 / 2), .fin 1⟩

/-- C9, as stated, fails: for every runtime the normalizer turns `oddCandidate`
into a query whose `min_price` is -5, below 0, and whose `bedrooms` is 5/2, not
an integer. -/
theorem normalized_constraints_violated :
    (¬ ∃ B : Builtins, propertiesRequirements B oddCandidate ≠ .ok oddNormalized) ∧
    ¬ nonNegative oddNormalized.min_price ∧
    ¬ nonNegativeInteger oddNormalized.bedrooms := by
  refine ⟨?_, ?_, ?_⟩
  · rintro ⟨B, h⟩
    apply h
    rw [propertiesRequirements_ok_iff]
    refine ⟨.fin (-5), .nan, .fin (5 / 2), .nan, rfl, rfl, rfl, rfl, ?_⟩
    simp [oddNormalized, numOr, JSNum.truthy]
  · intro h
    simp only [nonNegative, oddNormalized, JSNum.le, decide_eq_true_eq] at h
    norm_num at h
  · rintro ⟨k, hk⟩
    simp only [oddNormalized] at hk
    injection hk with hk
    have h2 := congrArg Rat.den hk
    rw [Rat.den_natCast] at h2
    norm_num at h2

/-- C9, amended: for every candidate whose four field values convert, the
normalizer returns a query each field of which is neither `NaN` nor zero;
`min_price` is above 0 whenever the candidate's coerced `min_price` is not
negative; `bedrooms` (`bathrooms`) is a positive integer whenever the
candidate's coerced value is `NaN` or a non-negative integer. -/
theorem normalized_constraints_amended (B : Builtins) (cand : JSValue)
    (hconv : ∀ key ∈ queryFields, stringifies (optProp cand key) = true) :
    ∃ q n1 n3 n4, propertiesRequirements B cand = .ok q ∧
      toNumber B (optProp cand "min_price") = .ok n1 ∧
      toNumber B (optProp cand "bedrooms") = .ok n3 ∧
      toNumber B (optProp cand "bathrooms") = .ok n4 ∧
      (q.min_price.truthy = true ∧ q.max_price.truthy = true ∧
        q.bedrooms.truthy = true ∧ q.bathrooms.truthy = true) ∧
      (n1.lt (.fin 0) = false → (JSNum.fin 0).lt q.min_price = true) ∧
      (n3 = .nan ∨ nonNegativeInteger n3 → positiveInteger q.bedrooms) ∧
      (n4 = .nan ∨ nonNegativeInteger n4 → positiveInteger q.bathrooms) := by
  have hpos : ∀ n : JSNum, n = .nan ∨ nonNegativeInteger n →
      positiveInteger (numOr n (.fin 1)) := by
    intro n hn
    rcases hn with rfl | ⟨k, rfl⟩
    · exact ⟨1, Nat.one_pos, by simp [numOr, JSNum.truthy]⟩
    · rcases Nat.eq_zero_or_pos k with rfl | hk
      · exact ⟨1, Nat.one_pos, by simp [numOr, JSNum.truthy]⟩
      · refine ⟨k, hk, ?_⟩
        apply numOr_of_truthy
        simp only [JSNum.truthy, decide_eq_true_eq]
        exact_mod_cast (Nat.pos_iff_ne_zero.mp hk)
  obtain ⟨q, hq⟩ := propertiesRequirements_of_stringifies B cand hconv
  have ht := normalized_truthy hq
  obtain ⟨n1, n2, n3, n4, h1, h2, h3, h4, rfl⟩ := (propertiesRequirements_ok_iff B cand q).mp hq
  refine ⟨_, n1, n3, n4, hq, h1, h3, h4, ht, ?_, hpos n3, hpos n4⟩
  intro h
  cases n1 with
  | nan => simp [numOr, JSNum.truthy, JSNum.lt]
  | posInf => simp [numOr, JSNum.truthy, JSNum.lt]
  | negInf => simp [JSNum.lt] at h
  | fin a =>
    simp only [JSNum.lt, decide_eq_false_iff_not, not_lt] at h
    by_cases ha : a = 0
    · subst ha
      simp [numOr, JSNum.truthy, JSNum.lt]
    · have : 0 < a := lt_of_le_of_ne h (Ne.symm ha)
      simp [numOr, JSNum.truthy, JSNum.lt, ha, this]

/-- Witness of C9 amended: the candidate of Scenario A converts and is
normalized to the Scenario A query, whose `bedrooms` 3 is a positive integer
and whose `min_price`, absent from the candidate, is the default. -/
theorem normalized_constraints_amended_witness :
    (∀ key ∈ queryFields, stringifies (optProp scenarioACandidate key) = true) ∧
    propertiesRequirements sampleRuntime scenarioACandidate = .ok scenarioAQuery ∧
    (JSNum.fin 0).lt scenarioAQuery.min_price = true ∧
    positiveInteger scenarioAQuery.bedrooms ∧
    positiveInteger scenarioAQuery.bathrooms := by
  obtain ⟨q, n1, n3, n4, hq, h1, h3, h4, _, hmin, hbed, hbath⟩ :=
    normalized_constraints_amended sampleRuntime scenarioACandidate scenarioACandidate_converts
  have hval : propertiesRequirements sampleRuntime scenarioACandidate = .ok scenarioAQuery := rfl
  have hqe : q = scenarioAQuery := Except.ok.inj (hq.symm.trans hval)
  have e1 : n1 = .nan := Except.ok.inj (h1.symm.trans rfl)
  have e3 : n3 = .fin 3 := Except.ok.inj (h3.symm.trans rfl)
  have e4 : n4 = .nan := Except.ok.inj (h4.symm.trans rfl)
  subst hqe e1 e3 e4
  exact ⟨scenarioACandidate_converts, hval, hmin rfl, hbed (Or.inr ⟨3, by norm_num⟩),
    hbath (Or.inl rfl)⟩

/-- C10: once the extraction has returned, for a request that carries text, a
candidate whose four field values convert, no field of the normalized query is
zero or `NaN`, the handler answers status 200, and every record of its answer
has `bedrooms` and `bathrooms` exactly the normalized ones and a price between
the normalized `min_price` and `max_price`; the answer is empty when the
normalized `max_price` is below the normalized `min_price`. -/
theorem response_satisfies_normalized_query (B : Builtins)
    (chain : JSValue → Except JSError JSValue)
    (axios : PropertyQuery → Except JSError JSValue) (body cand : JSValue)
    (hpost : (optProp body "post").truthy = true)
    (hllm : llmApi chain (optProp body "post") = .ok cand)
    (hconv : ∀ key ∈ queryFields, stringifies (optProp cand key) = true) :
    ∃ q, propertiesRequirements B cand = .ok q ∧
      (q.min_price.truthy = true ∧ q.max_price.truthy = true ∧
        q.bedrooms.truthy = true ∧ q.bathrooms.truthy = true) ∧
      ∃ out, parseProperties B chain axios body = ⟨200, .arr out⟩ ∧
        (∀ p ∈ out,
          ownProp "bedrooms" p = .num q.bedrooms ∧
          ownProp "bathrooms" p = .num q.bathrooms ∧
          ∃ x, toNumber B (ownProp "price" p) = .ok x ∧
            q.min_price.le x = true ∧ x.le q.max_price = true) ∧
        (q.max_price.lt q.min_price = true → out = []) := by
  obtain ⟨q, hq⟩ := propertiesRequirements_of_stringifies B cand hconv
  obtain ⟨hmin, hmax, hbed, hbath⟩ := normalized_truthy hq
  refine ⟨q, hq, ⟨hmin, hmax, hbed, hbath⟩, _,
    parseProperties_of_normalized B chain axios body cand q hpost hllm hq, ?_⟩
  have hmem : ∀ p ∈ fetchProperties B axios q, retained B q p := by
    intro p hp
    unfold fetchProperties at hp
    cases hres : fetchTry B q (axios q) with
    | error e => simp [hres] at hp
    | ok kept =>
      simp only [hres] at hp
      rcases fetchTry_cases B (axios q) with ⟨e, he⟩ | ⟨items, hitems⟩
      · rw [he q] at hres
        cases hres
      · rw [hitems q] at hres
        exact filterCallback_true_retained (arrayFilter_mem_true hres p hp).2
  have hall : ∀ p ∈ fetchProperties B axios q,
      ownProp "bedrooms" p = .num q.bedrooms ∧ ownProp "bathrooms" p = .num q.bathrooms ∧
      ∃ x, toNumber B (ownProp "price" p) = .ok x ∧
        q.min_price.le x = true ∧ x.le q.max_price = true := by
    intro p hp
    obtain ⟨h1, h2, h3, h4⟩ := hmem p hp
    obtain ⟨x, hx, hle⟩ := h3 hmin
    refine ⟨?_, ?_, x, hx, hle, (priceAtMost_iff hx _).mp (h4 hmax)⟩
    · rcases h1 with h1 | h1
      · rw [hbed] at h1; cases h1
      · exact h1
    · rcases h2 with h2 | h2
      · rw [hbath] at h2; cases h2
      · exact h2
  refine ⟨hall, ?_⟩
  intro hlt
  cases hout : fetchProperties B axios q with
  | nil => rfl
  | cons p rest =>
    obtain ⟨_, _, x, _, h3, h4⟩ := hall p (by rw [hout]; exact List.mem_cons_self _ _)
    have := jsLe_trans h3 h4
    rw [jsLe_false_of_lt hlt] at this
    cases this

/-- Witness of C10: the Scenario A extraction against a provider answering two
listings, of which the one with three bedrooms is returned. -/
theorem response_satisfies_normalized_query_witness :
    (optProp searchBody "post").truthy = true ∧
    (∀ key ∈ queryFields, stringifies (optProp scenarioACandidate key) = true) ∧
    propertiesRequirements sampleRuntime scenarioACandidate = .ok scenarioAQuery ∧
    parseProperties sampleRuntime scenarioAChain sampleProvider searchBody =
      ⟨200, .arr [listing 1800000 3 1]⟩ ∧
    ∃ out, parseProperties sampleRuntime scenarioAChain sampleProvider searchBody =
        ⟨200, .arr out⟩ ∧
      ∀ p ∈ out, ownProp "bedrooms" p = .num (.fin 3) := by
  obtain ⟨q, hq, _, out, hout, hall, _⟩ :=
    response_satisfies_normalized_query sampleRuntime scenarioAChain sampleProvider
      searchBody scenarioACandidate (by decide) rfl scenarioACandidate_converts
  have hval : propertiesRequirements sampleRuntime scenarioACandidate = .ok scenarioAQuery := rfl
  have hqe : q = scenarioAQuery := Except.ok.inj (hq.symm.trans hval)
  subst hqe
  exact ⟨by decide, scenarioACandidate_converts, hval, rfl, out, hout,
    fun p hp => (hall p hp).1⟩

end HomeSearch
